import Mathlib

/-!
Verification of the nix-store-gateway core (lookup-and-tee engine and AWS
SigV4 signer) against its specification.  The Rust sources embedded here are
`src/sign.rs` (percent-encoder and signer), `src/app.rs` (resolution cache,
mirror/origin resolvers, upload) and `src/main.rs` (tee pipeline and HTTP
handlers).  Network and clock effects are made explicit: probe races take
their outcome as an oracle argument, and the wall clock is passed in as the
pair of formatted date strings the code derives from it.
-/

namespace NixStoreGateway

/-! ## Bytes and hex helpers -/

/-- UTF-8 encoding of a single Unicode code point, as the Rust `str` type
stores it. -/
def utf8Char (c : Nat) : List Nat :=
  if c < 0x80 then [c]
  else if c < 0x800 then [0xC0 + c / 64, 0x80 + c % 64]
  else if c < 0x10000 then [0xE0 + c / 4096, 0x80 + c / 64 % 64, 0x80 + c % 64]
  else [0xF0 + c / 262144, 0x80 + c / 4096 % 64, 0x80 + c / 64 % 64, 0x80 + c % 64]

/-- The UTF-8 bytes of a string (Rust `str::as_bytes`). -/
def strBytes (s : String) : List Nat :=
  s.data.foldr (fun c acc => utf8Char c.toNat ++ acc) []

/-- Uppercase hexadecimal digit, as emitted by the percent-encoding crate. -/
def hexUpperDigit (n : Nat) : Nat :=
  if n < 10 then 48 + n else 55 + n

/-- Lowercase hexadecimal digit, as emitted by `hex::encode`. -/
def hexLowerDigit (n : Nat) : Nat :=
  if n < 10 then 48 + n else 87 + n

/-- `hex::encode`: each byte becomes two lowercase hex digits. -/
def hexEncodeBytes (bs : List Nat) : List Nat :=
  bs.foldr (fun b acc => hexLowerDigit (b / 16) :: hexLowerDigit (b % 16) :: acc) []

/-- Interpret a list of ASCII code points as a Lean string. -/
def asciiStr (bs : List Nat) : String :=
  ⟨bs.map Char.ofNat⟩

/-! ## Percent-encoder (`src/sign.rs`, `SET` and `percent_encode`)

`SET` is built from `percent_encoding::CONTROLS` (the C0 controls `0x00`
to `0x1F` plus DEL `0x7F`) by `.add`-ing the listed ASCII bytes.  The
percent-encoding crate (v2) encodes a byte iff `!byte.is_ascii() ||
set.contains(byte)` — every non-ASCII byte is always percent-encoded,
regardless of the set — and writes the escape as `%` followed by two
uppercase hex digits. -/

/-- The bytes `.add`-ed onto `CONTROLS` in `src/sign.rs` lines 16–45, in
source order: space `/ : , ? # [ ] { } | @ ! $ & ' ( ) * + ; = % < > " ^
backtick backslash. -/
def SETadds : List Nat :=
  [32, 47, 58, 44, 63, 35, 91, 93, 123, 125, 124, 64, 33, 36, 38, 39,
   40, 41, 42, 43, 59, 61, 37, 60, 62, 34, 94, 96, 92]

/-- Membership in `SET`: C0 controls, DEL, and the added bytes. -/
def inSET (b : Nat) : Bool :=
  b < 32 || b == 127 || SETadds.contains b

/-- Whether the percent-encoding crate escapes byte `b` for `SET`:
`!b.is_ascii() || SET.contains(b)`. -/
def shouldPercentEncode (b : Nat) : Bool :=
  !(b < 128) || inSET b

/-- Encoding of a single byte by `percent_encoding::percent_encode` with
`SET`: `%XX` (uppercase hex) when escaped, the byte itself otherwise. -/
def percentEncodeByte (b : Nat) : List Nat :=
  if shouldPercentEncode b then [37, hexUpperDigit (b / 16), hexUpperDigit (b % 16)]
  else [b]

/-- `percent_encode` from `src/sign.rs` line 47, as a byte transformation. -/
def percentEncodeBytes (bs : List Nat) : List Nat :=
  bs.foldr (fun b acc => percentEncodeByte b ++ acc) []

/-- `percent_encode` on strings: encode the UTF-8 bytes; the output consists
of ASCII bytes only, read back as a string. -/
def percentEncodeStr (s : String) : String :=
  asciiStr (percentEncodeBytes (strBytes s))

/-! ## SHA-256 and HMAC-SHA256

`src/sign.rs` delegates hashing to the `sha2` and `hmac` crates.  These are
modelled here directly from FIPS 180-4 / RFC 2104, over byte lists, with
32-bit words carried as `Nat` reduced modulo `2 ^ 32`. -/

/-- Bitwise combination of the low `k` bits of two naturals. -/
def bitIter (f : Nat → Nat → Nat) : Nat → Nat → Nat → Nat
  | 0, _, _ => 0
  | k + 1, a, b => f (a % 2) (b % 2) + 2 * bitIter f k (a / 2) (b / 2)

/-- 32-bit exclusive or. -/
def xor32 (a b : Nat) : Nat :=
  bitIter (fun x y => (x + y) % 2) 32 a b

/-- 32-bit bitwise and. -/
def and32 (a b : Nat) : Nat :=
  bitIter (fun x y => x * y) 32 a b

/-- 32-bit complement (argument below `2 ^ 32`). -/
def not32 (a : Nat) : Nat :=
  4294967295 - a % 4294967296

/-- Addition modulo `2 ^ 32`. -/
def add32 (a b : Nat) : Nat :=
  (a + b) % 4294967296

/-- Rotate a 32-bit word right by `n`. -/
def rotr32 (n a : Nat) : Nat :=
  a / 2 ^ n + a % 2 ^ n * 2 ^ (32 - n)

/-- Logical shift right by `n`. -/
def shr32 (n a : Nat) : Nat :=
  a / 2 ^ n

def bigSigma0 (x : Nat) : Nat := xor32 (rotr32 2 x) (xor32 (rotr32 13 x) (rotr32 22 x))

def bigSigma1 (x : Nat) : Nat := xor32 (rotr32 6 x) (xor32 (rotr32 11 x) (rotr32 25 x))

def smallSigma0 (x : Nat) : Nat := xor32 (rotr32 7 x) (xor32 (rotr32 18 x) (shr32 3 x))

def smallSigma1 (x : Nat) : Nat := xor32 (rotr32 17 x) (xor32 (rotr32 19 x) (shr32 10 x))

def chFn (x y z : Nat) : Nat := xor32 (and32 x y) (and32 (not32 x) z)

def majFn (x y z : Nat) : Nat := xor32 (and32 x y) (xor32 (and32 x z) (and32 y z))

/-- The SHA-256 round constants (decimal). -/
def K256 : List Nat :=
  [1116352408, 1899447441, 3049323471, 3921009573, 961987163, 1508970993,
   2453635748, 2870763221, 3624381080, 310598401, 607225278, 1426881987,
   1925078388, 2162078206, 2614888103, 3248222580, 3835390401, 4022224774,
   264347078, 604807628, 770255983, 1249150122, 1555081692, 1996064986,
   2554220882, 2821834349, 2952996808, 3210313671, 3336571891, 3584528711,
   113926993, 338241895, 666307205, 773529912, 1294757372, 1396182291,
   1695183700, 1986661051, 2177026350, 2456956037, 2730485921, 2820302411,
   3259730800, 3345764771, 3516065817, 3600352804, 4094571909, 275423344,
   430227734, 506948616, 659060556, 883997877, 958139571, 1322822218,
   1537002063, 1747873779, 1955562222, 2024104815, 2227730452, 2361852424,
   2428436474, 2756734187, 3204031479, 3329325298]

/-- The SHA-256 initial hash value (decimal). -/
def H256 : List Nat :=
  [1779033703, 3144134277, 1013904242, 2773480762,
   1359893119, 2600822924, 528734635, 1541459225]

/-- Big-endian bytes of a natural, `k` bytes wide. -/
def beBytes : Nat → Nat → List Nat
  | 0, _ => []
  | k + 1, n => beBytes k (n / 256) ++ [n % 256]

/-- SHA-256 message padding: `0x80`, zeros, then the bit length in 8
big-endian bytes, to a multiple of 64 bytes. -/
def sha256Pad (msg : List Nat) : List Nat :=
  msg ++ [128] ++ List.replicate ((64 - (msg.length + 9) % 64) % 64) 0
      ++ beBytes 8 (8 * msg.length)

/-- Split into `k` blocks of 64 bytes. -/
def toBlocks : Nat → List Nat → List (List Nat)
  | 0, _ => []
  | k + 1, bs => bs.take 64 :: toBlocks k (bs.drop 64)

/-- Big-endian 32-bit words of a byte list. -/
def beWords : List Nat → List Nat
  | b0 :: b1 :: b2 :: b3 :: rest => (((b0 * 256 + b1) * 256 + b2) * 256 + b3) :: beWords rest
  | _ => []

/-- One step of the message-schedule extension. -/
def extendStep (w : List Nat) : List Nat :=
  let n := w.length
  w ++ [add32 (w.getD (n - 16) 0)
          (add32 (smallSigma0 (w.getD (n - 15) 0))
            (add32 (w.getD (n - 7) 0) (smallSigma1 (w.getD (n - 2) 0))))]

/-- The 64-word message schedule of a block's 16 words. -/
def schedule (w : List Nat) : List Nat :=
  extendStep^[48] w

/-- One SHA-256 compression round; `kw` is the round constant plus the
schedule word. -/
def roundStep (st : List Nat) (kw : Nat) : List Nat :=
  match st with
  | [a, b, c, d, e, f, g, h] =>
    let t1 := add32 h (add32 (bigSigma1 e) (add32 (chFn e f g) kw))
    let t2 := add32 (bigSigma0 a) (majFn a b c)
    [add32 t1 t2, a, b, c, add32 d t1, e, f, g]
  | other => other

/-- Compress one 64-byte block into the running hash state. -/
def processBlock (h : List Nat) (block : List Nat) : List Nat :=
  let w := schedule (beWords block)
  let kw := (List.zip K256 w).map (fun p => add32 p.1 p.2)
  let st := kw.foldl roundStep h
  (List.zip h st).map (fun p => add32 p.1 p.2)

/-- SHA-256 digest of a byte list, as 32 bytes. -/
def sha256 (msg : List Nat) : List Nat :=
  let padded := sha256Pad msg
  let hs := (toBlocks (padded.length / 64) padded).foldl processBlock H256
  hs.foldr (fun w acc => beBytes 4 w ++ acc) []

/-- Hex SHA-256 digest, lowercase, as computed by
`hex::encode(Sha256::digest(..))` in `src/sign.rs`. -/
def sha256Hex (msg : List Nat) : String :=
  asciiStr (hexEncodeBytes (sha256 msg))

/-- HMAC-SHA256 (RFC 2104) over byte lists, modelling the `hmac` crate used
by `fn hmac` in `src/sign.rs`. -/
def hmacSha256 (key msg : List Nat) : List Nat :=
  let key := if 64 < key.length then sha256 key else key
  let key := key ++ List.replicate (64 - key.length) 0
  let ipad := key.map (fun b => xor32 b 54)
  let opad := key.map (fun b => xor32 b 92)
  sha256 (opad ++ sha256 (ipad ++ msg))

/-! ## HTTP data model

`reqwest::Url` is modelled by its components used in `src/sign.rs`:
`host_str`, `port`, `path` and the decoded `query_pairs`.  `reqwest::Request`
carries method, URL, a header map and an optional body.  Header names in a
`http::HeaderMap` are case-insensitive and single-valued under `insert`;
the map is modelled as an association list whose lookups compare
lowercased names and whose `insert` replaces any entry of the same name. -/

structure Url where
  scheme : String
  host : Option String
  port : Option Nat
  path : String
  query : List (String × String)
  deriving DecidableEq

/-- A request body: in-memory bytes (`Body::as_bytes() = Some`) or a
stream (`Body::as_bytes() = None`). -/
inductive Body where
  | bytes (data : List Nat)
  | stream
  deriving DecidableEq

structure Request where
  method : String
  url : Url
  headers : List (String × String)
  body : Option Body
  deriving DecidableEq

/-- ASCII lowercasing of one character (header names are ASCII; matches
`str::to_lowercase` and `HeaderName` normalization on them). -/
def lowerChar (c : Char) : Char :=
  if 65 ≤ c.toNat ∧ c.toNat ≤ 90 then Char.ofNat (c.toNat + 32) else c

def lowerName (s : String) : String :=
  ⟨s.data.map lowerChar⟩

def headerGet (hs : List (String × String)) (n : String) : Option String :=
  (hs.find? (fun p => lowerName p.1 == lowerName n)).map (fun p => p.2)

def headerContains (hs : List (String × String)) (n : String) : Bool :=
  (hs.find? (fun p => lowerName p.1 == lowerName n)).isSome

def headerInsert (hs : List (String × String)) (n v : String) : List (String × String) :=
  (n, v) :: hs.filter (fun p => lowerName p.1 != lowerName n)

/-! ## The signer (`src/sign.rs`, `AwsSigner`)

`Utc::now()` is impure; the two strings derived from it, `amz_date =
YYYYMMDDTHHMMSSZ` and `date_scope = YYYYMMDD`, are taken as arguments. -/

structure AwsSigner where
  access_key : String
  access_secret : String
  region : String
  service : String
  deriving DecidableEq

/-- `AwsSigner::new` stores the secret pre-prefixed with the literal
`AWS4`. -/
def AwsSigner.new (accessKey secret region service : String) : AwsSigner :=
  ⟨accessKey, "AWS4" ++ secret, region, service⟩

/-- `AwsSigner::generate_signing_key`: the HMAC-SHA256 derivation chain. -/
def AwsSigner.signingKey (sg : AwsSigner) (dateScope : String) : List Nat :=
  hmacSha256
    (hmacSha256
      (hmacSha256 (hmacSha256 (strBytes sg.access_secret) (strBytes dateScope))
        (strBytes sg.region))
      (strBytes sg.service))
    (strBytes "aws4_request")

/-- The payload hash of `AwsSigner::sign` lines 85–94: hardcoded hex
SHA-256 of the empty string when no body, `UNSIGNED-PAYLOAD` when the body
has no in-memory bytes, the hex SHA-256 of the bytes otherwise. -/
def payloadHash (body : Option Body) : String :=
  body.elim "e3b0c44298fc1c149afbf4c8996fb92427ae41e4649b934ca495991b7852b855"
    (fun b =>
      match b with
      | .stream => "UNSIGNED-PAYLOAD"
      | .bytes s => sha256Hex s)

/-- The synthesized `host` header value: `host` or `host:port`. -/
def hostHeaderValue (host : String) (port : Option Nat) : String :=
  match port with
  | some p => host ++ ":" ++ toString p
  | none => host

/-- The header map after the mutation phase of `AwsSigner::sign` lines
96–113: insert `x-amz-content-sha256` and `x-amz-date`, then synthesize
`host` when absent and the URL has one. -/
def signHeaders (req : Request) (amzDate : String) : List (String × String) :=
  let h := headerInsert req.headers "x-amz-content-sha256" (payloadHash req.body)
  let h := headerInsert h "x-amz-date" amzDate
  if headerContains h "host" then h
  else
    match req.url.host with
    | some host => headerInsert h "host" (hostHeaderValue host req.url.port)
    | none => h

/-- Byte-lexicographic order on strings (Rust `str` `Ord`; UTF-8 order
coincides with code-point order). -/
def charListLe : List Char → List Char → Bool
  | [], _ => true
  | _ :: _, [] => false
  | a :: as, b :: bs => if a = b then charListLe as bs else decide (a < b)

def strLe (a b : String) : Bool :=
  charListLe a.data b.data

/-- Order on query pairs: by key, then by value (Rust tuple `Ord`). -/
def pairLe (a b : String × String) : Bool :=
  if a.1 = b.1 then strLe a.2 b.2 else strLe a.1 b.1

def insertSorted {α : Type} (le : α → α → Bool) (x : α) : List α → List α
  | [] => [x]
  | y :: ys => if le x y then x :: y :: ys else y :: insertSorted le x ys

/-- Stable insertion sort, modelling `itertools::sorted`. -/
def sortByFn {α : Type} (le : α → α → Bool) (xs : List α) : List α :=
  xs.foldr (insertSorted le) []

/-- Canonical query string: pairs sorted, each side percent-encoded with
`SET`, joined `k=v` with `&`. -/
def canonicalQuery (q : List (String × String)) : String :=
  String.intercalate "&"
    ((sortByFn pairLe q).map (fun p => percentEncodeStr p.1 ++ "=" ++ percentEncodeStr p.2))

/-- Lowercase every header name and trim every value (lines 127–136). -/
def headerPairs (hs : List (String × String)) : List (String × String) :=
  hs.map (fun p => (lowerName p.1, p.2.trim))

/-- Collect into a `BTreeMap`: later entries overwrite earlier ones of the
same key, and the result is sorted ascending by key. -/
def headerMapOf (hs : List (String × String)) : List (String × String) :=
  sortByFn (fun a b => strLe a.1 b.1)
    (hs.foldl (fun acc p => acc.filter (fun q => q.1 != p.1) ++ [p]) [])

def canonicalHeadersStr (m : List (String × String)) : String :=
  String.intercalate "\n" (m.map (fun p => p.1 ++ ":" ++ p.2))

def signedHeadersStr (m : List (String × String)) : String :=
  String.intercalate ";" (m.map (fun p => p.1))

/-- The canonical-request format string of lines 144–152 and 223–231. -/
def canonicalRequestFmt (method epath query headers signed payload : String) : String :=
  method ++ "\n" ++ epath ++ "\n" ++ query ++ "\n" ++ headers ++ "\n\n"
    ++ signed ++ "\n" ++ payload

/-- `encoded-path`: the URL path as-is, or `/` when empty. -/
def encodedPathOf (u : Url) : String :=
  if u.path = "" then "/" else u.path

def signHeaderMap (req : Request) (amzDate : String) : List (String × String) :=
  headerMapOf (headerPairs (signHeaders req amzDate))

/-- The canonical request computed by `AwsSigner::sign`. -/
def signCanonicalRequest (req : Request) (amzDate : String) : String :=
  canonicalRequestFmt req.method (encodedPathOf req.url) (canonicalQuery req.url.query)
    (canonicalHeadersStr (signHeaderMap req amzDate))
    (signedHeadersStr (signHeaderMap req amzDate))
    (payloadHash req.body)

/-- String-to-sign and final hex signature for a canonical request. -/
def signatureOf (sg : AwsSigner) (amzDate dateScope canonical : String) : String :=
  let stringToSign :=
    "AWS4-HMAC-SHA256\n" ++ amzDate ++ "\n" ++ dateScope ++ "/" ++ sg.region ++ "/"
      ++ sg.service ++ "/aws4_request\n" ++ sha256Hex (strBytes canonical)
  asciiStr (hexEncodeBytes (hmacSha256 (sg.signingKey dateScope) (strBytes stringToSign)))

/-- The `Authorization` header value of lines 167–170. -/
def authHeaderValue (sg : AwsSigner) (dateScope signed signature : String) : String :=
  "AWS4-HMAC-SHA256 Credential=" ++ sg.access_key ++ "/" ++ dateScope ++ "/" ++ sg.region
    ++ "/" ++ sg.service ++ "/aws4_request,SignedHeaders=" ++ signed
    ++ ",Signature=" ++ signature

/-- `AwsSigner::sign`: add the SigV4 headers to the request.  Nothing but
the header map is touched. -/
def AwsSigner.sign (sg : AwsSigner) (amzDate dateScope : String) (req : Request) : Request :=
  let hs := signHeaders req amzDate
  let signature := signatureOf sg amzDate dateScope (signCanonicalRequest req amzDate)
  { req with
    headers := headerInsert hs "Authorization"
      (authHeaderValue sg dateScope (signedHeadersStr (signHeaderMap req amzDate)) signature) }

/-- Outcome of a Rust computation that may `panic!`. -/
inductive Outcome (α : Type) where
  | ok (val : α)
  | panic (msg : String)
  deriving DecidableEq

/-- The five query parameters appended by `AwsSigner::sign_url` before
signing, in source order. -/
def signUrlQuery (sg : AwsSigner) (amzDate dateScope : String) (url : Url)
    (expireSecs : Nat) : List (String × String) :=
  url.query ++
    [("X-Amz-Algorithm", "AWS4-HMAC-SHA256"),
     ("X-Amz-Credential",
       sg.access_key ++ "/" ++ dateScope ++ "/" ++ sg.region ++ "/" ++ sg.service
         ++ "/aws4_request"),
     ("X-Amz-Date", amzDate),
     ("X-Amz-Expires", toString expireSecs),
     ("X-Amz-SignedHeaders", "host")]

/-- The canonical request of `AwsSigner::sign_url` lines 223–231: method
`GET`, signed headers exactly `host`, payload the literal
`UNSIGNED-PAYLOAD`. -/
def signUrlCanonical (sg : AwsSigner) (amzDate dateScope : String) (url : Url)
    (expireSecs : Nat) (host : String) : String :=
  canonicalRequestFmt "GET" (encodedPathOf url)
    (canonicalQuery (signUrlQuery sg amzDate dateScope url expireSecs))
    ("host:" ++ host) "host" "UNSIGNED-PAYLOAD"

/-- `AwsSigner::sign_url`: presign a GET URL.  When the URL has no host the
source executes `panic!("URL must have a host")` (lines 182–190). -/
def AwsSigner.signUrl (sg : AwsSigner) (amzDate dateScope : String) (url : Url)
    (expireSecs : Nat) : Outcome Url :=
  match url.host with
  | none => .panic "URL must have a host"
  | some h =>
    let host := hostHeaderValue h url.port
    let q1 := signUrlQuery sg amzDate dateScope url expireSecs
    let signature :=
      signatureOf sg amzDate dateScope (signUrlCanonical sg amzDate dateScope url expireSecs host)
    .ok { url with query := q1 ++ [("X-Amz-Signature", signature)] }

/-! ## Resolution cache and resolvers (`src/app.rs`)

The `moka` cache is modelled as an association list; a missing key and an
expired key are indistinguishable to callers, so expiry is simply absence.
Probe races are network effects: each resolver takes the outcome of its
race as an oracle argument (`none` = every probe failed or, for the mirror
race, the 2-second deadline elapsed; `some` = the first success and the
value it yielded).  The `probed`/`networked` field records whether the
function reached the code that issues HTTP requests. -/

inductive CacheItem where
  | mirror (url : String)
  | origin (url : String)
  | notExistMirror
  | notExistOrigin
  deriving DecidableEq

def Cache : Type := List (String × CacheItem)

instance : DecidableEq Cache :=
  inferInstanceAs (DecidableEq (List (String × CacheItem)))

def cacheGet (c : Cache) (p : String) : Option CacheItem :=
  ((c : List (String × CacheItem)).find? (fun q => q.1 == p)).map (fun q => q.2)

def cacheInsert (c : Cache) (p : String) (v : CacheItem) : Cache :=
  (p, v) :: (c : List (String × CacheItem)).filter (fun q => q.1 != p)

structure MirrorResult where
  result : Option String
  cache : Cache
  probed : Bool
  deriving DecidableEq

/-- `App::get_mirror` (`src/app.rs` lines 98–155).  `race` is the outcome
of `timeout(2s, select_ok(probes))`: `some url` when some probe won within
the deadline (the winning mirror URL, or the presigned GET URL for the
object-store probe), `none` when every probe failed or the deadline
elapsed. -/
def get_mirror (c : Cache) (p : String) (race : Option String) : MirrorResult :=
  match cacheGet c p with
  | some (.mirror s) => ⟨some s, c, false⟩
  | some (.origin _) | some .notExistOrigin | some .notExistMirror => ⟨none, c, false⟩
  | none =>
    match race with
    | some url => ⟨some url, cacheInsert c p (.mirror url), true⟩
    | none => ⟨none, cacheInsert c p .notExistMirror, true⟩

structure OriginResult (ρ : Type) where
  result : Option (String × ρ)
  cache : Cache
  networked : Bool
  deriving DecidableEq

/-- The race phase of `App::get_origin` (lines 174–202): the winning
probe's final URL and response are cached as `Origin`, or every probe
fails and `NotExistOrigin` is cached. -/
def originRace {ρ : Type} (c : Cache) (p : String) (race : Option (String × ρ)) :
    OriginResult ρ :=
  match race with
  | some ur => ⟨some ur, cacheInsert c p (.origin ur.1), true⟩
  | none => ⟨none, cacheInsert c p .notExistOrigin, true⟩

/-- `App::get_origin` (lines 157–203).  `cachedFetch u` is the outcome of
the `GET` to a cached URL `u` (`some resp` iff its status was 2xx);
`race` is the outcome of `select_ok` over the origin probes. -/
def get_origin {ρ : Type} (c : Cache) (p : String) (cachedFetch : String → Option ρ)
    (race : Option (String × ρ)) : OriginResult ρ :=
  match cacheGet c p with
  | some (.mirror u) | some (.origin u) =>
    match cachedFetch u with
    | some r => ⟨some (u, r), c, true⟩
    | none => originRace c p race
  | some .notExistOrigin => ⟨none, c, false⟩
  | some .notExistMirror | none => originRace c p race

/-- Outcome of executing an HTTP request: a transport error, or a response
with a status code. -/
inductive PutResult where
  | transportErr
  | status (code : Nat)
  deriving DecidableEq

/-- `reqwest::Response::error_for_status` fails exactly on client and
server error statuses, 400–599. -/
def errorForStatus (code : Nat) : Bool :=
  400 ≤ code && code ≤ 599

/-- The commit phase of `App::upload` (lines 226–235): execute the signed
PUT; on transport error or `error_for_status` failure the `?` operator
propagates the error with no cache write, otherwise the cache is set to
`Mirror(presignedGetUrl)`, where `presignedGetUrl` is the
`sign_url(endpoint + path, TTL * 5)` string computed before the request
(line 229). -/
def upload (c : Cache) (p : String) (put : PutResult) (presignedGetUrl : String) :
    Except Unit Unit × Cache :=
  match put with
  | .transportErr => (.error (), c)
  | .status code =>
    if errorForStatus code then (.error (), c)
    else (.ok (), cacheInsert c p (.mirror presignedGetUrl))

/-! ## Tee pipeline and handlers (`src/main.rs`)

`main.rs` carries its own `AppState` whose cache maps paths to
`Option<String>`.  The tee producer of `fetch_redir` (lines 279–305) reads
frames from the upstream body and forwards them to the client channel
(`tx`) and the upload channel (`tx2`).  The client is modelled by the
number of sends it accepts before its receiver is dropped; every
client-channel send after that fails. -/

inductive Frame where
  | chunk (data : List Nat)
  | errFrame (msg : String)
  deriving DecidableEq

def Frame.isErr : Frame → Bool
  | .chunk _ => false
  | .errFrame _ => true

/-- The tee producer loop: returns the frames delivered to the client
channel, the frames delivered to the upload channel, and whether the task
died in a `unwrap` panic.  On an `Ok` frame, a successful client send
forwards the frame to the upload channel; a failed client send pushes the
`send error` sentinel to the upload channel and breaks.  On an `Err`
frame, the error is sent to the upload channel first and then to the
client (whose send is `unwrap`ped), and the loop continues. -/
def teeGo : List Frame → Nat → List Frame × List Frame × Bool
  | [], _ => ([], [], false)
  | .chunk b :: rest, a + 1 =>
    let r := teeGo rest a
    (.chunk b :: r.1, .chunk b :: r.2.1, r.2.2)
  | .chunk _ :: _, 0 => ([], [.errFrame "send error"], false)
  | .errFrame e :: rest, a + 1 =>
    let r := teeGo rest a
    (.errFrame e :: r.1, .errFrame e :: r.2.1, r.2.2)
  | .errFrame e :: _, 0 => ([], [.errFrame e], true)

/-- The tee pipeline on an upstream frame list, with a client that accepts
`accept` sends before disconnecting. -/
def tee (upstream : List Frame) (accept : Nat) : List Frame × List Frame × Bool :=
  teeGo upstream accept

/-- Modelled from the spec: the HTTP client transport (out of scope of the
sources) fails a request whose streamed body yields an error — "The
partial upload will fail the PUT".  Otherwise the PUT completes with some
response status. -/
def putOutcome (body : List Frame) (respStatus : Nat) : PutResult :=
  if body.any Frame.isErr then .transportErr else .status respStatus

def MainCache : Type := List (String × Option String)

instance : DecidableEq MainCache :=
  inferInstanceAs (DecidableEq (List (String × Option String)))

def mainCacheGet (c : MainCache) (p : String) : Option (Option String) :=
  ((c : List (String × Option String)).find? (fun q => q.1 == p)).map (fun q => q.2)

def mainCacheInsert (c : MainCache) (p : String) (v : Option String) : MainCache :=
  (p, v) :: (c : List (String × Option String)).filter (fun q => q.1 != p)

def mainCacheRemove (c : MainCache) (p : String) : MainCache :=
  (c : List (String × Option String)).filter (fun q => q.1 != p)

/-- `AppState::upload` of `src/main.rs` (lines 168–203): remove the cache
entry, execute the signed PUT; a transport error propagates via `?`;
otherwise insert `Some(presigned url)` on `error_for_status` success and
`None` on failure. -/
def uploadMain (c : MainCache) (p : String) (put : PutResult) (geturl : String) :
    Except Unit Unit × MainCache :=
  let c1 := mainCacheRemove c p
  match put with
  | .transportErr => (.error (), c1)
  | .status code =>
    if errorForStatus code then (.ok (), mainCacheInsert c1 p none)
    else (.ok (), mainCacheInsert c1 p (some geturl))

/-- The HEAD handler `fetch` of `src/main.rs` (lines 251–259), as the
status code and header list of its response.  The handler consults only
`get_mirror`; `originHit` records what the origin resolver would have
answered and is never used by the code.  A hit yields a bare
`StatusCode::OK` response (no headers), a miss yields 404. -/
def fetchHandler (ρ : Type) (mirrorHit : Option String)
    (originHit : Option (String × ρ)) : Nat × List (String × String) :=
  match mirrorHit with
  | some _ => (200, [])
  | none => (404, [])

/-! ## Concrete fixtures for closed instances -/

/-- A signer with example credentials. -/
def sgEx : AwsSigner :=
  AwsSigner.new "AKIDEXAMPLE" "wJalrXUtnFEMI" "us-east-1" "s3"

/-- A URL with no host, the signer's sole failure input. -/
def hostlessUrl : Url :=
  { scheme := "mailto", host := none, port := none, path := "x", query := [] }

/-- A request whose URL has no host. -/
def hostlessReq : Request :=
  { method := "GET", url := hostlessUrl, headers := [], body := none }

/-- A concrete streamed PUT against the object store. -/
def reqEx : Request :=
  { method := "PUT"
    , url := { scheme := "https", host := some "bucket.s3.example.com", port := none,
               path := "/nar/abc.nar", query := [] }
    , headers := [("content-length", "100")]
    , body := some Body.stream }

/-! ## Helper lemmas -/

theorem find?_filter_keep {α : Type} (l : List α) (pr f : α → Bool)
    (h : ∀ x, pr x = true → f x = true) : (l.filter f).find? pr = l.find? pr := by
  induction l with
  | nil => rfl
  | cons x xs ih =>
    by_cases hf : f x = true
    · rw [List.filter_cons_of_pos hf]
      by_cases hp : pr x = true
      · rw [List.find?_cons_of_pos _ hp, List.find?_cons_of_pos _ hp]
      · rw [List.find?_cons_of_neg _ hp, List.find?_cons_of_neg _ hp, ih]
    · have hp : ¬ pr x = true := fun hx => hf (h x hx)
      rw [List.filter_cons_of_neg (by simpa using hf), List.find?_cons_of_neg _ hp, ih]

theorem headerGet_insert (hs : List (String × String)) (n v q : String) :
    headerGet (headerInsert hs n v) q
      = if lowerName q = lowerName n then some v else headerGet hs q := by
  unfold headerGet headerInsert
  by_cases hq : lowerName q = lowerName n
  · rw [if_pos hq, List.find?_cons_of_pos _ (by simp [hq])]
    rfl
  · rw [if_neg hq, List.find?_cons_of_neg _ (by simpa using fun e => hq e.symm),
      find?_filter_keep]
    intro x hx
    simp only [beq_iff_eq] at hx
    simp only [bne_iff_ne, ne_eq]
    exact fun e => hq (hx ▸ e)

theorem headerContains_eq (hs : List (String × String)) (q : String) :
    headerContains hs q = (headerGet hs q).isSome := by
  unfold headerContains headerGet
  cases hs.find? (fun p => lowerName p.1 == lowerName q) <;> rfl

theorem headerContains_insert (hs : List (String × String)) (n v q : String) :
    headerContains (headerInsert hs n v) q
      = ((lowerName q == lowerName n) || headerContains hs q) := by
  rw [headerContains_eq, headerContains_eq, headerGet_insert]
  by_cases hq : lowerName q = lowerName n <;> simp [hq]

theorem cacheGet_insert (c : Cache) (p : String) (v : CacheItem) :
    cacheGet (cacheInsert c p v) p = some v := by
  unfold cacheGet cacheInsert
  rw [List.find?_cons_of_pos _ (by simp)]
  rfl

theorem mainCacheGet_remove (c : MainCache) (p : String) :
    mainCacheGet (mainCacheRemove c p) p = none := by
  unfold mainCacheGet mainCacheRemove
  have hn : ((c : List (String × Option String)).filter (fun q => q.1 != p)).find?
      (fun q => q.1 == p) = none := by
    rw [List.find?_eq_none]
    intro x hx
    have := (List.mem_filter.mp hx).2
    simp only [bne_iff_ne] at this
    simp [this]
  rw [hn]
  rfl

/-! ## C1 — percent-encoder -/

/-- C1 (counterexample): the claim says every byte outside the specified
set passes through unchanged, but the percent-encoding crate always
escapes non-ASCII bytes.  Byte `0x80` is not in `SET`, yet it is encoded
as `%80` rather than passed through. -/
theorem c1_nonascii_counterexample :
    inSET 128 = false ∧ percentEncodeByte 128 ≠ [128]
      ∧ percentEncodeByte 128 = [37, 56, 48] := by
  refine ⟨rfl, by decide, rfl⟩

set_option maxRecDepth 8192 in
/-- C1 (amended): the percent-encoder escapes exactly the specified set —
ASCII controls (`0x00`–`0x1F`, `0x7F`) plus the listed bytes — together
with every non-ASCII byte (`0x80`–`0xFF`), writing `%XX` with uppercase
hex digits, and passes every other (ASCII, outside-set) byte through
unchanged; on `"a b/c?d"` it yields `"a%20b%2Fc%3Fd"`. -/
theorem c1_percent_encode_amended :
    (∀ b, b < 256 →
      (shouldPercentEncode b = true ↔ (b ≤ 31 ∨ b = 127 ∨ b ∈ SETadds ∨ 128 ≤ b)))
    ∧ (∀ b, b < 256 → shouldPercentEncode b = true →
        percentEncodeByte b = [37, hexUpperDigit (b / 16), hexUpperDigit (b % 16)])
    ∧ (∀ b, b < 256 → shouldPercentEncode b = false → percentEncodeByte b = [b])
    ∧ (∀ n, n < 16 →
        (48 ≤ hexUpperDigit n ∧ hexUpperDigit n ≤ 57)
          ∨ (65 ≤ hexUpperDigit n ∧ hexUpperDigit n ≤ 70))
    ∧ percentEncodeStr "a b/c?d" = "a%20b%2Fc%3Fd" :=
  ⟨by decide, by decide, by decide, by decide, by decide⟩

/-- C1 (witness): the amended theorem applied at bytes 47 (`/`, escaped as
`%2F`), 97 (`a`, passed through) and the claim's concrete example. -/
theorem c1_percent_encode_amended_witness :
    percentEncodeByte 47 = [37, hexUpperDigit 2, hexUpperDigit 15]
    ∧ percentEncodeByte 97 = [97]
    ∧ percentEncodeStr "a b/c?d" = "a%20b%2Fc%3Fd" :=
  ⟨c1_percent_encode_amended.2.1 47 (by decide) (by decide),
   c1_percent_encode_amended.2.2.1 97 (by decide) (by decide),
   c1_percent_encode_amended.2.2.2.2⟩

/-! ## C2 — payload hash -/

set_option maxRecDepth 8192 in
/-- C2: the payload hash used in the canonical request of `sign` is the
hardcoded hex SHA-256 of the empty string (which this development's
SHA-256 confirms equals `e3b0c442…b855`) when the body is absent, the hex
SHA-256 of the body bytes when the body is in-memory, and the literal
`UNSIGNED-PAYLOAD` when the body is a stream; the canonical request of
`sign_url` always carries `UNSIGNED-PAYLOAD`. -/
theorem c2_payload_hash :
    payloadHash none = "e3b0c44298fc1c149afbf4c8996fb92427ae41e4649b934ca495991b7852b855"
    ∧ sha256Hex [] = "e3b0c44298fc1c149afbf4c8996fb92427ae41e4649b934ca495991b7852b855"
    ∧ (∀ bs, payloadHash (some (Body.bytes bs)) = sha256Hex bs)
    ∧ payloadHash (some Body.stream) = "UNSIGNED-PAYLOAD"
    ∧ (∀ req amzDate, signCanonicalRequest req amzDate
        = canonicalRequestFmt req.method (encodedPathOf req.url)
            (canonicalQuery req.url.query)
            (canonicalHeadersStr (signHeaderMap req amzDate))
            (signedHeadersStr (signHeaderMap req amzDate))
            (payloadHash req.body))
    ∧ (∀ sg amzDate dateScope url expireSecs host,
        signUrlCanonical sg amzDate dateScope url expireSecs host
          = canonicalRequestFmt "GET" (encodedPathOf url)
              (canonicalQuery (signUrlQuery sg amzDate dateScope url expireSecs))
              ("host:" ++ host) "host" "UNSIGNED-PAYLOAD") :=
  ⟨rfl, by decide, fun _ => rfl, rfl, fun _ _ => rfl, fun _ _ _ _ _ _ => rfl⟩

/-! ## C4, C5 — mirror resolver -/

/-- C4: on a cache miss, when every probe fails or the 2-second deadline
elapses (race outcome `none`), `get_mirror` inserts `AbsentFromMirror`
(`NotExistMirror`) for the path and returns `None`. -/
theorem c4_mirror_negative_caching :
    ∀ (c : Cache) (p : String), cacheGet c p = none →
      get_mirror c p none = ⟨none, cacheInsert c p .notExistMirror, true⟩
      ∧ cacheGet (get_mirror c p none).cache p = some .notExistMirror := by
  intro c p h
  refine ⟨by simp [get_mirror, h], ?_⟩
  simp [get_mirror, h, cacheGet_insert]

/-- C4 (witness): the theorem at the empty cache and a concrete path. -/
theorem c4_mirror_negative_caching_witness :
    get_mirror [] "/nar/abc" none
      = ⟨none, cacheInsert [] "/nar/abc" .notExistMirror, true⟩
    ∧ cacheGet (get_mirror [] "/nar/abc" none).cache "/nar/abc" = some .notExistMirror :=
  c4_mirror_negative_caching [] "/nar/abc" rfl

/-- C5: a cached `Mirror(u)` is returned as `Some u` with no probe issued;
a cached `Origin(_)`, `AbsentFromMirror` or `AbsentFromOrigin` yields
`None` with no probe issued; and after one failed race a second call on
the resulting cache returns `None` without issuing probes. -/
theorem c5_mirror_cache_hits :
    ∀ (c : Cache) (p : String) (race : Option String),
      (∀ u, cacheGet c p = some (.mirror u) → get_mirror c p race = ⟨some u, c, false⟩)
      ∧ (∀ u, cacheGet c p = some (.origin u) → get_mirror c p race = ⟨none, c, false⟩)
      ∧ (cacheGet c p = some .notExistMirror → get_mirror c p race = ⟨none, c, false⟩)
      ∧ (cacheGet c p = some .notExistOrigin → get_mirror c p race = ⟨none, c, false⟩)
      ∧ (cacheGet c p = none →
          get_mirror (get_mirror c p none).cache p race
            = ⟨none, (get_mirror c p none).cache, false⟩) := by
  intro c p race
  refine ⟨fun u h => by simp [get_mirror, h], fun u h => by simp [get_mirror, h],
    fun h => by simp [get_mirror, h], fun h => by simp [get_mirror, h], fun h => ?_⟩
  have hc : (get_mirror c p none).cache = cacheInsert c p .notExistMirror := by
    simp [get_mirror, h]
  rw [hc]
  simp [get_mirror, cacheGet_insert]

/-- C5 (witness): the theorem at concrete caches holding each state, plus
the no-probe second call after a failed race. -/
theorem c5_mirror_cache_hits_witness :
    get_mirror [("/a", .mirror "http://m/a")] "/a" none
      = ⟨some "http://m/a", [("/a", .mirror "http://m/a")], false⟩
    ∧ get_mirror [("/b", .origin "http://o/b")] "/b" (some "http://m/b")
      = ⟨none, [("/b", .origin "http://o/b")], false⟩
    ∧ get_mirror [("/c", .notExistMirror)] "/c" (some "http://m/c")
      = ⟨none, [("/c", .notExistMirror)], false⟩
    ∧ get_mirror [("/d", .notExistOrigin)] "/d" none
      = ⟨none, [("/d", .notExistOrigin)], false⟩
    ∧ get_mirror (get_mirror [] "/e" none).cache "/e" (some "http://m/e")
      = ⟨none, (get_mirror [] "/e" none).cache, false⟩ :=
  ⟨(c5_mirror_cache_hits [("/a", .mirror "http://m/a")] "/a" none).1 "http://m/a" rfl,
   (c5_mirror_cache_hits [("/b", .origin "http://o/b")] "/b" (some "http://m/b")).2.1
     "http://o/b" rfl,
   (c5_mirror_cache_hits [("/c", .notExistMirror)] "/c" (some "http://m/c")).2.2.1 rfl,
   (c5_mirror_cache_hits [("/d", .notExistOrigin)] "/d" none).2.2.2.1 rfl,
   (c5_mirror_cache_hits [] "/e" (some "http://m/e")).2.2.2.2 rfl⟩

/-! ## C6 — origin resolver -/

/-- C6: `get_origin` returns `None` with no network activity on a cached
`AbsentFromOrigin`; when the race is reached from a miss or from
`AbsentFromMirror`, a winning probe's final URL is cached as `Origin(u)`
and `(u, response)` is returned, while an all-fail race caches
`AbsentFromOrigin` and returns `None`; a cached `Mirror`/`Origin` URL
whose re-fetch is not 2xx falls through to the same race. -/
theorem c6_origin_resolution :
    ∀ (ρ : Type) (c : Cache) (p : String) (cf : String → Option ρ),
      (∀ race, cacheGet c p = some .notExistOrigin →
        get_origin c p cf race = ⟨none, c, false⟩)
      ∧ (∀ u r, cacheGet c p = none ∨ cacheGet c p = some .notExistMirror →
          get_origin c p cf (some (u, r))
            = ⟨some (u, r), cacheInsert c p (.origin u), true⟩
          ∧ cacheGet (get_origin c p cf (some (u, r))).cache p = some (.origin u))
      ∧ (cacheGet c p = none ∨ cacheGet c p = some .notExistMirror →
          get_origin c p cf none = ⟨none, cacheInsert c p .notExistOrigin, true⟩
          ∧ cacheGet (get_origin c p cf none).cache p = some .notExistOrigin)
      ∧ (∀ u race,
          cacheGet c p = some (.mirror u) ∨ cacheGet c p = some (.origin u) →
          cf u = none → get_origin c p cf race = originRace c p race) := by
  intro ρ c p cf
  refine ⟨fun race h => by simp [get_origin, h], fun u r h => ?_, fun h => ?_,
    fun u race h hf => ?_⟩
  · rcases h with h | h <;>
      exact ⟨by simp [get_origin, originRace, h],
        by simp [get_origin, originRace, h, cacheGet_insert]⟩
  · rcases h with h | h <;>
      exact ⟨by simp [get_origin, originRace, h],
        by simp [get_origin, originRace, h, cacheGet_insert]⟩
  · rcases h with h | h <;> simp [get_origin, h, hf]

/-- C6 (witness): the theorem at concrete caches: a cached
`AbsentFromOrigin`, a miss with a winning race, a miss with an all-fail
race, and a cached `Origin` whose re-fetch fails. -/
theorem c6_origin_resolution_witness :
    get_origin [("/a", .notExistOrigin)] "/a" (fun _ => (none : Option Nat)) none
      = ⟨none, [("/a", .notExistOrigin)], false⟩
    ∧ get_origin [] "/b" (fun _ => (none : Option Nat)) (some ("http://o/b", 7))
      = ⟨some ("http://o/b", 7), cacheInsert [] "/b" (.origin "http://o/b"), true⟩
    ∧ get_origin [] "/c" (fun _ => (none : Option Nat)) none
      = ⟨none, cacheInsert [] "/c" .notExistOrigin, true⟩
    ∧ get_origin [("/d", .origin "http://o/d")] "/d" (fun _ => (none : Option Nat)) none
      = originRace [("/d", .origin "http://o/d")] "/d" none :=
  ⟨(c6_origin_resolution Nat [("/a", .notExistOrigin)] "/a" (fun _ => none)).1 none rfl,
   ((c6_origin_resolution Nat [] "/b" (fun _ => none)).2.1 "http://o/b" 7 (Or.inl rfl)).1,
   ((c6_origin_resolution Nat [] "/c" (fun _ => none)).2.2.1 (Or.inl rfl)).1,
   (c6_origin_resolution Nat [("/d", .origin "http://o/d")] "/d"
     (fun _ => none)).2.2.2 "http://o/d" none (Or.inr rfl) rfl⟩

/-! ## C7 — upload cache update -/

/-- C7 (counterexample): the claim says every non-2xx response fails the
upload and leaves the cache unchanged, but the code checks
`error_for_status`, which only fails on 400–599.  A 301 response is
non-2xx, yet `upload` returns success and sets the cache entry to
`Mirror(presigned url)`. -/
theorem c7_redirect_counterexample :
    (301 < 200 ∨ 300 ≤ 301)
    ∧ upload [] "/k" (.status 301) "http://presigned/k"
        = (.ok (), [("/k", .mirror "http://presigned/k")])
    ∧ (upload [] "/k" (.status 301) "http://presigned/k").2 ≠ ([] : Cache) := by
  refine ⟨Or.inr (by decide), rfl, by decide⟩

/-- C7 (amended): a 2xx response sets the cache entry to
`Mirror(presigned url)`; a transport error or a 4xx/5xx response
(`error_for_status` failure) fails the operation and leaves the cache
unchanged; any other status — e.g. a 3xx — is treated as success and also
sets the cache entry. -/
theorem c7_upload_cache_amended :
    ∀ (c : Cache) (p presigned : String) (code : Nat),
      upload c p .transportErr presigned = (.error (), c)
      ∧ (400 ≤ code → code ≤ 599 →
          upload c p (.status code) presigned = (.error (), c))
      ∧ (code < 400 ∨ 599 < code →
          upload c p (.status code) presigned
            = (.ok (), cacheInsert c p (.mirror presigned))
          ∧ cacheGet (upload c p (.status code) presigned).2 p
            = some (.mirror presigned))
      ∧ (200 ≤ code → code < 300 →
          upload c p (.status code) presigned
            = (.ok (), cacheInsert c p (.mirror presigned))) := by
  intro c p presigned code
  have hup : ∀ hcode : errorForStatus code = false,
      upload c p (.status code) presigned
        = (.ok (), cacheInsert c p (.mirror presigned)) := by
    intro hcode
    simp [upload, hcode]
  refine ⟨rfl, fun h1 h2 => by simp [upload, errorForStatus, h1, h2], fun h => ?_, ?_⟩
  · have hcode : errorForStatus code = false := by
      rcases h with h | h <;> simp [errorForStatus] <;> omega
    exact ⟨hup hcode, by rw [(hup hcode)]; exact cacheGet_insert c p _⟩
  · intro h1 h2
    have hcode : errorForStatus code = false := by
      simp [errorForStatus]; omega
    exact hup hcode

/-- C7 (witness): the amended theorem at a 201 success, a 503 failure and
a transport error. -/
theorem c7_upload_cache_amended_witness :
    upload [] "/k" (.status 201) "G" = (.ok (), cacheInsert [] "/k" (.mirror "G"))
    ∧ upload [] "/k" (.status 503) "G" = (.error (), [])
    ∧ upload [] "/k" .transportErr "G" = (.error (), []) :=
  ⟨(c7_upload_cache_amended [] "/k" "G" 201).2.2.2 (by decide) (by decide),
   (c7_upload_cache_amended [] "/k" "G" 503).2.1 (by decide) (by decide),
   (c7_upload_cache_amended [] "/k" "G" 503).1⟩

/-! ## C9 — HEAD handler -/

/-- C9 (counterexample): the claim says a mirror hit yields 200 with a
`Location` header and a mirror miss falls back to `get_origin`; the code
returns a bare 200 with no headers on a mirror hit, and 404 on a mirror
miss even when the origin resolver would hit. -/
theorem c9_head_counterexample :
    fetchHandler Nat (some "http://mirror.example/x") (some ("http://origin.example/x", 0))
      = (200, [])
    ∧ headerGet (fetchHandler Nat (some "http://mirror.example/x")
        (some ("http://origin.example/x", 0))).2 "location" = none
    ∧ fetchHandler Nat none (some ("http://origin.example/x", 0)) = (404, []) :=
  ⟨rfl, rfl, rfl⟩

/-- C9 (amended): for every HEAD request, the response is 200 when
`get_mirror` hits and 404 otherwise; no `Location` header is set and
`get_origin` is never consulted (the response does not depend on it). -/
theorem c9_head_handler_amended :
    ∀ (ρ : Type) (m : Option String) (o : Option (String × ρ)),
      fetchHandler ρ m o = (if m.isSome then 200 else 404, [])
      ∧ headerGet (fetchHandler ρ m o).2 "location" = none
      ∧ (∀ o2, fetchHandler ρ m o = fetchHandler ρ m o2) := by
  intro ρ m o
  cases m <;> exact ⟨rfl, rfl, fun o2 => rfl⟩

/-! ## C8 — tee pipeline, client abort -/

theorem teeGo_client_abort :
    ∀ (upstream : List Frame) (accept : Nat), accept < upstream.length →
      (teeGo upstream accept).2.1.any Frame.isErr = true
      ∧ (teeGo upstream accept).1.length ≤ accept
      ∧ (teeGo upstream accept).2.1.length ≤ accept + 1 := by
  intro upstream
  induction upstream with
  | nil => intro accept h; exact absurd h (by simp)
  | cons f rest ih =>
    intro accept h
    cases f with
    | chunk b =>
      cases accept with
      | zero => simp [teeGo, Frame.isErr]
      | succ a =>
        obtain ⟨h1, h2, h3⟩ := ih a (Nat.lt_of_succ_lt_succ h)
        refine ⟨by simp [teeGo, h1], by simpa [teeGo] using h2, by simpa [teeGo] using h3⟩
    | errFrame e =>
      cases accept with
      | zero => simp [teeGo, Frame.isErr]
      | succ a =>
        obtain ⟨h1, h2, h3⟩ := ih a (Nat.lt_of_succ_lt_succ h)
        refine ⟨by simp [teeGo, Frame.isErr], by simpa [teeGo] using h2,
          by simpa [teeGo] using h3⟩

/-- C8: when the client disconnects before the upstream is exhausted
(it accepts fewer sends than there are upstream frames), the producer puts
an error sentinel on the upload channel and stops reading (both outputs
are cut short); consequently the PUT built from the upload channel fails
as a transport error, `AppState::upload` propagates the error, and the
cache entry for the path — removed at the start of `upload` and never
re-inserted — is not set to a mirror URL. -/
theorem c8_tee_client_abort :
    ∀ (upstream : List Frame) (accept : Nat) (c : MainCache) (p geturl : String)
      (respStatus : Nat), accept < upstream.length →
      (tee upstream accept).2.1.any Frame.isErr = true
      ∧ (tee upstream accept).1.length ≤ accept
      ∧ (tee upstream accept).2.1.length ≤ accept + 1
      ∧ putOutcome (tee upstream accept).2.1 respStatus = .transportErr
      ∧ (uploadMain c p (putOutcome (tee upstream accept).2.1 respStatus) geturl).1
          = .error ()
      ∧ mainCacheGet
          (uploadMain c p (putOutcome (tee upstream accept).2.1 respStatus) geturl).2 p
          = none := by
  intro upstream accept c p geturl respStatus h
  obtain ⟨h1, h2, h3⟩ := teeGo_client_abort upstream accept h
  have hput : putOutcome (tee upstream accept).2.1 respStatus = .transportErr := by
    simp [putOutcome, tee, h1]
  refine ⟨h1, h2, h3, hput, ?_, ?_⟩
  · rw [hput]; rfl
  · rw [hput]
    exact mainCacheGet_remove c p

/-- C8 (witness): a two-chunk upstream whose client accepts one frame:
the upload channel carries the sentinel, the PUT fails, and the cache
holds nothing for the path. -/
theorem c8_tee_client_abort_witness :
    putOutcome (tee [.chunk [1], .chunk [2]] 1).2.1 200 = .transportErr
    ∧ mainCacheGet
        (uploadMain [] "/k" (putOutcome (tee [.chunk [1], .chunk [2]] 1).2.1 200) "G").2
        "/k" = none :=
  ⟨(c8_tee_client_abort [.chunk [1], .chunk [2]] 1 [] "/k" "G" 200 (by decide)).2.2.2.1,
   (c8_tee_client_abort [.chunk [1], .chunk [2]] 1 [] "/k" "G" 200
     (by decide)).2.2.2.2.2⟩

/-! ## Header-map effect of `sign` -/

theorem headerContains_signPre (req : Request) (a : String) :
    headerContains
      (headerInsert (headerInsert req.headers "x-amz-content-sha256" (payloadHash req.body))
        "x-amz-date" a) "host"
      = headerContains req.headers "host" := by
  rw [headerContains_insert, headerContains_insert]
  have e1 : (lowerName "host" == lowerName "x-amz-date") = false := by decide
  have e2 : (lowerName "host" == lowerName "x-amz-content-sha256") = false := by decide
  rw [e1, e2, Bool.false_or, Bool.false_or]

theorem signHeaders_eq_present (req : Request) (a : String)
    (hc : headerContains req.headers "host" = true) :
    signHeaders req a
      = headerInsert (headerInsert req.headers "x-amz-content-sha256" (payloadHash req.body))
          "x-amz-date" a := by
  simp [signHeaders, headerContains_signPre, hc]

theorem signHeaders_eq_absent_some (req : Request) (a host : String)
    (hc : headerContains req.headers "host" = false) (hu : req.url.host = some host) :
    signHeaders req a
      = headerInsert
          (headerInsert (headerInsert req.headers "x-amz-content-sha256"
            (payloadHash req.body)) "x-amz-date" a)
          "host" (hostHeaderValue host req.url.port) := by
  simp [signHeaders, headerContains_signPre, hc, hu]

theorem signHeaders_eq_absent_none (req : Request) (a : String)
    (hc : headerContains req.headers "host" = false) (hu : req.url.host = none) :
    signHeaders req a
      = headerInsert (headerInsert req.headers "x-amz-content-sha256" (payloadHash req.body))
          "x-amz-date" a := by
  simp [signHeaders, headerContains_signPre, hc, hu]

theorem signHeaders_shape (req : Request) (a : String) :
    signHeaders req a
      = headerInsert (headerInsert req.headers "x-amz-content-sha256" (payloadHash req.body))
          "x-amz-date" a
    ∨ ∃ host, req.url.host = some host
        ∧ headerContains req.headers "host" = false
        ∧ signHeaders req a
          = headerInsert
              (headerInsert (headerInsert req.headers "x-amz-content-sha256"
                (payloadHash req.body)) "x-amz-date" a)
              "host" (hostHeaderValue host req.url.port) := by
  by_cases hc : headerContains req.headers "host" = true
  · exact Or.inl (signHeaders_eq_present req a hc)
  · have hc' : headerContains req.headers "host" = false := by
      revert hc; cases headerContains req.headers "host" <;> simp
    cases hu : req.url.host with
    | some host => exact Or.inr ⟨host, rfl, hc', signHeaders_eq_absent_some req a host hc' hu⟩
    | none => exact Or.inl (signHeaders_eq_absent_none req a hc' hu)

theorem headerGet_signHeaders_amzc (req : Request) (a : String) :
    headerGet (signHeaders req a) "x-amz-content-sha256" = some (payloadHash req.body) := by
  rcases signHeaders_shape req a with h | ⟨host, _, _, h⟩ <;> rw [h]
  · rw [headerGet_insert, if_neg (by decide), headerGet_insert, if_pos rfl]
  · rw [headerGet_insert, if_neg (by decide), headerGet_insert, if_neg (by decide),
      headerGet_insert, if_pos rfl]

theorem headerGet_signHeaders_date (req : Request) (a : String) :
    headerGet (signHeaders req a) "x-amz-date" = some a := by
  rcases signHeaders_shape req a with h | ⟨host, _, _, h⟩ <;> rw [h]
  · rw [headerGet_insert, if_pos rfl]
  · rw [headerGet_insert, if_neg (by decide), headerGet_insert, if_pos rfl]

theorem headerGet_signHeaders_other (req : Request) (a q : String)
    (h1 : lowerName q ≠ "x-amz-content-sha256") (h2 : lowerName q ≠ "x-amz-date")
    (h3 : lowerName q ≠ "host") :
    headerGet (signHeaders req a) q = headerGet req.headers q := by
  have e1 : lowerName "x-amz-content-sha256" = "x-amz-content-sha256" := by decide
  have e2 : lowerName "x-amz-date" = "x-amz-date" := by decide
  have e3 : lowerName "host" = "host" := by decide
  rcases signHeaders_shape req a with h | ⟨host, _, _, h⟩ <;> rw [h]
  · rw [headerGet_insert, e2, if_neg h2, headerGet_insert, e1, if_neg h1]
  · rw [headerGet_insert, e3, if_neg h3, headerGet_insert, e2, if_neg h2,
      headerGet_insert, e1, if_neg h1]

theorem headerGet_signHeaders_host_present (req : Request) (a : String)
    (hc : headerContains req.headers "host" = true) :
    headerGet (signHeaders req a) "host" = headerGet req.headers "host" := by
  rw [signHeaders_eq_present req a hc, headerGet_insert, if_neg (by decide),
    headerGet_insert, if_neg (by decide)]

theorem headerGet_signHeaders_host_absent (req : Request) (a host : String)
    (hc : headerContains req.headers "host" = false) (hu : req.url.host = some host) :
    headerGet (signHeaders req a) "host" = some (hostHeaderValue host req.url.port) := by
  rw [signHeaders_eq_absent_some req a host hc hu, headerGet_insert, if_pos rfl]

theorem headerGet_signHeaders_host_none (req : Request) (a : String)
    (hc : headerContains req.headers "host" = false) (hu : req.url.host = none) :
    headerGet (signHeaders req a) "host" = none := by
  rw [signHeaders_eq_absent_none req a hc hu, headerGet_insert, if_neg (by decide),
    headerGet_insert, if_neg (by decide)]
  rw [headerContains_eq] at hc
  cases hg : headerGet req.headers "host" with
  | none => rfl
  | some v => rw [hg] at hc; exact absurd hc (by simp)

theorem sign_headers_eq (sg : AwsSigner) (amzDate dateScope : String) (req : Request) :
    (AwsSigner.sign sg amzDate dateScope req).headers
      = headerInsert (signHeaders req amzDate) "Authorization"
          (authHeaderValue sg dateScope (signedHeadersStr (signHeaderMap req amzDate))
            (signatureOf sg amzDate dateScope (signCanonicalRequest req amzDate))) := rfl

/-! ## C3 — signer failure modes -/

/-- C3 (counterexample): on a URL with no host, `sign_url` executes
`panic!("URL must have a host")` — modelled by the `Outcome.panic`
constructor — instead of surfacing an error value. -/
theorem c3_hostless_counterexample :
    AwsSigner.signUrl sgEx "20130524T000000Z" "20130524" hostlessUrl 86400
      = .panic "URL must have a host" := rfl

/-- C3 (amended): `sign_url` never fails on a URL with a host, and panics
(rather than returning an error) exactly when the URL has no host; `sign`
never fails at all — on a hostless URL it silently omits the `host`
header. -/
theorem c3_failure_modes_amended :
    (∀ sg amzDate dateScope url expireSecs, Url.host url = none →
      AwsSigner.signUrl sg amzDate dateScope url expireSecs
        = .panic "URL must have a host")
    ∧ (∀ sg amzDate dateScope url expireSecs h, Url.host url = some h →
        ∃ u, AwsSigner.signUrl sg amzDate dateScope url expireSecs = .ok u)
    ∧ (∀ sg amzDate dateScope req, Url.host req.url = none →
        headerContains req.headers "host" = false →
        headerGet (AwsSigner.sign sg amzDate dateScope req).headers "host" = none) := by
  refine ⟨fun sg a d url e hu => by simp [AwsSigner.signUrl, hu],
    fun sg a d url e h hu => ?_, fun sg a d req hu hc => ?_⟩
  · unfold AwsSigner.signUrl
    rw [hu]
    exact ⟨_, rfl⟩
  rw [sign_headers_eq, headerGet_insert, if_neg (by decide)]
  exact headerGet_signHeaders_host_none req a hc hu

/-- C3 (witness): the amended theorem at the example signer, the hostless
URL, and the hostless request. -/
theorem c3_failure_modes_amended_witness :
    AwsSigner.signUrl sgEx "20130524T000000Z" "20130524" hostlessUrl 86400
      = .panic "URL must have a host"
    ∧ (∃ u, AwsSigner.signUrl sgEx "20130524T000000Z" "20130524"
        { hostlessUrl with host := some "h.example" } 86400 = .ok u)
    ∧ headerGet (AwsSigner.sign sgEx "20130524T000000Z" "20130524" hostlessReq).headers
        "host" = none :=
  ⟨c3_failure_modes_amended.1 sgEx "20130524T000000Z" "20130524" hostlessUrl 86400 rfl,
   c3_failure_modes_amended.2.1 sgEx "20130524T000000Z" "20130524"
     { hostlessUrl with host := some "h.example" } 86400 "h.example" rfl,
   c3_failure_modes_amended.2.2 sgEx "20130524T000000Z" "20130524" hostlessReq rfl rfl⟩

/-! ## C10 — frame effect of `sign` -/

/-- C10: `sign` returns the same request with only headers changed — it
sets `x-amz-content-sha256`, `x-amz-date`, `host` (only when absent, and
the URL has one) and `Authorization`, and leaves the method, the URL, the
body and every other pre-existing header unchanged. -/
theorem c10_sign_frame_effect :
    ∀ (sg : AwsSigner) (amzDate dateScope : String) (req : Request),
      (AwsSigner.sign sg amzDate dateScope req).method = req.method
      ∧ (AwsSigner.sign sg amzDate dateScope req).url = req.url
      ∧ (AwsSigner.sign sg amzDate dateScope req).body = req.body
      ∧ headerGet (AwsSigner.sign sg amzDate dateScope req).headers "x-amz-content-sha256"
          = some (payloadHash req.body)
      ∧ headerGet (AwsSigner.sign sg amzDate dateScope req).headers "x-amz-date"
          = some amzDate
      ∧ (∀ h, headerContains req.headers "host" = false → Url.host req.url = some h →
          headerGet (AwsSigner.sign sg amzDate dateScope req).headers "host"
            = some (hostHeaderValue h req.url.port))
      ∧ (headerContains req.headers "host" = true →
          headerGet (AwsSigner.sign sg amzDate dateScope req).headers "host"
            = headerGet req.headers "host")
      ∧ headerGet (AwsSigner.sign sg amzDate dateScope req).headers "authorization"
          = some (authHeaderValue sg dateScope (signedHeadersStr (signHeaderMap req amzDate))
              (signatureOf sg amzDate dateScope (signCanonicalRequest req amzDate)))
      ∧ (∀ q, lowerName q ≠ "x-amz-content-sha256" → lowerName q ≠ "x-amz-date" →
          lowerName q ≠ "host" → lowerName q ≠ "authorization" →
          headerGet (AwsSigner.sign sg amzDate dateScope req).headers q
            = headerGet req.headers q) := by
  intro sg amzDate dateScope req
  have eauth : lowerName "Authorization" = "authorization" := by decide
  refine ⟨rfl, rfl, rfl, ?_, ?_, fun h hc hu => ?_, fun hc => ?_, ?_, fun q h1 h2 h3 h4 => ?_⟩
  · rw [sign_headers_eq, headerGet_insert, if_neg (by decide)]
    exact headerGet_signHeaders_amzc req amzDate
  · rw [sign_headers_eq, headerGet_insert, if_neg (by decide)]
    exact headerGet_signHeaders_date req amzDate
  · rw [sign_headers_eq, headerGet_insert, if_neg (by decide)]
    exact headerGet_signHeaders_host_absent req amzDate h hc hu
  · rw [sign_headers_eq, headerGet_insert, if_neg (by decide)]
    exact headerGet_signHeaders_host_present req amzDate hc
  · rw [sign_headers_eq, headerGet_insert, if_pos (by decide)]
  · rw [sign_headers_eq, headerGet_insert, eauth, if_neg h4]
    exact headerGet_signHeaders_other req amzDate q h1 h2 h3

/-- C10 (witness): the theorem at a concrete streamed PUT: dates and host
are set, `x-amz-content-sha256` carries `UNSIGNED-PAYLOAD`, the method and
body are untouched, and the pre-existing `content-length` header is
preserved. -/
theorem c10_sign_frame_effect_witness :
    (AwsSigner.sign sgEx "20130524T000000Z" "20130524" reqEx).method = reqEx.method
    ∧ (AwsSigner.sign sgEx "20130524T000000Z" "20130524" reqEx).body = reqEx.body
    ∧ headerGet (AwsSigner.sign sgEx "20130524T000000Z" "20130524" reqEx).headers
        "x-amz-content-sha256" = some (payloadHash reqEx.body)
    ∧ headerGet (AwsSigner.sign sgEx "20130524T000000Z" "20130524" reqEx).headers
        "x-amz-date" = some "20130524T000000Z"
    ∧ headerGet (AwsSigner.sign sgEx "20130524T000000Z" "20130524" reqEx).headers
        "host" = some (hostHeaderValue "bucket.s3.example.com" reqEx.url.port)
    ∧ headerGet (AwsSigner.sign sgEx "20130524T000000Z" "20130524" reqEx).headers
        "content-length" = headerGet reqEx.headers "content-length" :=
  ⟨(c10_sign_frame_effect sgEx "20130524T000000Z" "20130524" reqEx).1,
   (c10_sign_frame_effect sgEx "20130524T000000Z" "20130524" reqEx).2.2.1,
   (c10_sign_frame_effect sgEx "20130524T000000Z" "20130524" reqEx).2.2.2.1,
   (c10_sign_frame_effect sgEx "20130524T000000Z" "20130524" reqEx).2.2.2.2.1,
   (c10_sign_frame_effect sgEx "20130524T000000Z" "20130524" reqEx).2.2.2.2.2.1
     "bucket.s3.example.com" (by decide) rfl,
   (c10_sign_frame_effect sgEx "20130524T000000Z" "20130524" reqEx).2.2.2.2.2.2.2.2
     "content-length" (by decide) (by decide) (by decide) (by decide)⟩

end NixStoreGateway
